import Mathlib

/-!
# Verification of the `conlife` Game-of-Life backend

Shallow embedding of the crate's core (`src/grid.rs`, `src/object.rs`):
the `Grid`/`Cell` data model, neighbour precomputation, the generation
`advance` algorithm, object loading, and the textual pattern parser.

Rust `usize`/`u32` values are modelled as `Nat` (the dimensions and indices
involved never overflow their machine width in any behaviour the theorems
touch; `usize` subtraction appears only under guards that make it exact).
A Rust panic (from `expect` / out-of-bounds indexing) is modelled as a
distinguished result: `Option.none`, `LoadResult.panicked`, or
`FromStringResult.panicked`.
-/

namespace Conlife

/-- `Cell` from `src/grid.rs`: precomputed neighbour coordinate list plus
the `alive` flag. -/
structure Cell where
  neighbour_indices : List (Nat × Nat)
  alive : Bool
deriving DecidableEq, Repr

/-- `Cell::new()`: dead, with an empty neighbour list. -/
def Cell.new : Cell := { neighbour_indices := [], alive := false }

/-- `Grid` from `src/grid.rs`. `cells` is indexed row-first: `cells[y][x]`. -/
structure Grid where
  width : Nat
  height : Nat
  cells : List (List Cell)
deriving DecidableEq, Repr

/-- The candidate x-coordinates built by `Grid::compute_neighbour_indices`
for a cell in column `x`: `x` itself, then `x - 1` (pushed when `x != 0`
and `self.width > i`), then `x + 1` (pushed when `x != self.width - 1`
and `self.width > i`). -/
def xIndices (width x : Nat) : List Nat :=
  [x] ++ (if x ≠ 0 ∧ x - 1 < width then [x - 1] else [])
      ++ (if x ≠ width - 1 ∧ x + 1 < width then [x + 1] else [])

/-- The candidate y-coordinates, symmetric to `xIndices` with `height`. -/
def yIndices (height y : Nat) : List Nat :=
  [y] ++ (if y ≠ 0 ∧ y - 1 < height then [y - 1] else [])
      ++ (if y ≠ height - 1 ∧ y + 1 < height then [y + 1] else [])

/-- The neighbour list `Grid::compute_neighbour_indices` pushes for the cell
at `(x, y)`: the cross product of `xIndices` (outer loop) and `yIndices`
(inner loop), excluding the cell's own coordinate. -/
def neighbourIndicesFor (width height x y : Nat) : List (Nat × Nat) :=
  (xIndices width x).flatMap (fun nx =>
    (yIndices height y).filterMap (fun ny =>
      if nx ≠ x ∨ ny ≠ y then some (nx, ny) else none))

/-- `Grid::new(width, height)`: `height` rows of `width` dead cells, with
`compute_neighbour_indices` already applied. The Rust code first builds the
rows of `Cell::new()` and then fills each cell's (empty) neighbour list from
`(x, y, width, height)` alone; the two loops are fused here, which yields
the same grid because the second loop writes `neighbourIndicesFor` into the
cell at `(x, y)` and touches nothing else. -/
def Grid.new (width height : Nat) : Grid :=
  { width := width, height := height,
    cells := (List.range height).map (fun y =>
      (List.range width).map (fun x =>
        { neighbour_indices := neighbourIndicesFor width height x y,
          alive := false })) }

/-- Indexing `cells[y][x]`, with `none` for out of bounds. -/
def lookupCell? (cells : List (List Cell)) (x y : Nat) : Option Cell :=
  cells[y]?.bind (fun row => row[x]?)

/-- The cell of `g` at column `x`, row `y` (`g.cells[y][x]`). -/
def Grid.cellAt? (g : Grid) (x y : Nat) : Option Cell :=
  lookupCell? g.cells x y

/-- The accumulating loop of `Cell::neighbour_count`: for each stored
position `(x, y)` it reads `cells[y][x].alive` — a read out of bounds is a
Rust panic, modelled as `none`. -/
def sumAliveGo (cells : List (List Cell)) : List (Nat × Nat) → Nat → Option Nat
  | [], acc => some acc
  | p :: rest, acc =>
    match lookupCell? cells p.1 p.2 with
    | none => none
    | some c => sumAliveGo cells rest (acc + (if c.alive then 1 else 0))

/-- `Cell::neighbour_count(&self, cells)` from `src/grid.rs`. -/
def Cell.neighbourCount? (c : Cell) (cells : List (List Cell)) : Option Nat :=
  sumAliveGo cells c.neighbour_indices 0

/-- The `match` in `Grid::advance`: `0..=1 => dead`, `2 => unchanged`,
`3 => alive`, `4.. => dead`. -/
def ruleNext (count : Nat) (alive : Bool) : Bool :=
  if count ≤ 1 then false
  else if count = 2 then alive
  else if count = 3 then true
  else false

/-- `Grid::advance`: snapshot `old_cells = self.cells.clone()`, then rewrite
every cell's `alive` from its neighbour count taken against the snapshot.
Each loop iteration only writes the current cell's `alive` flag and reads
counts from `old_cells`, so the sequential in-place loop equals this map
over the snapshot. `none` models the panic of an out-of-bounds read inside
`neighbour_count`. -/
def Grid.advance? (g : Grid) : Option Grid :=
  (g.cells.mapM (fun (row : List Cell) => row.mapM (fun (cell : Cell) =>
    (cell.neighbourCount? g.cells).map
      (fun n => { cell with alive := ruleNext n cell.alive })))).map
    (fun cells => { g with cells := cells })

/-- `Object` from `src/object.rs`. -/
structure Object where
  coordinates : List (Nat × Nat)
deriving DecidableEq, Repr

/-- `LoadObjectError` from `src/object.rs`. -/
inductive LoadObjectError where
  | NoCoordinatesFound
  | DuplicateCoordinate
  | BadInput
deriving DecidableEq, Repr

/-- Result of `Grid::load_object`, which in Rust returns `()` but can
panic through `expect`; `panicked` records the message and the grid state
at the moment of the panic (coordinates applied so far remain set). -/
inductive LoadResult where
  | ok (g : Grid)
  | panicked (msg : String) (g : Grid)
deriving DecidableEq, Repr

/-- The `error_msg` format string of `Grid::load_object`:
`"Position {:?} is out of bounds for grid of size ({}, {})"`. -/
def outOfBoundsMsg (px py w h : Nat) : String :=
  "Position (" ++ toString px ++ ", " ++ toString py ++
    ") is out of bounds for grid of size (" ++ toString w ++ ", " ++
    toString h ++ ")"

/-- `row` with the cell at column `x` set alive (identity when out of
bounds, though `loadGo` only calls it in bounds). -/
def setRow : List Cell → Nat → List Cell
  | [], _ => []
  | c :: cs, 0 => { c with alive := true } :: cs
  | c :: cs, n + 1 => c :: setRow cs n

/-- `cells` with the cell at row `y`, column `x` set alive. -/
def setCells : List (List Cell) → Nat → Nat → List (List Cell)
  | [], _, _ => []
  | r :: rs, 0, x => setRow r x :: rs
  | r :: rs, y + 1, x => r :: setCells rs y x

/-- The loop of `Grid::load_object`: for each `(x, y)` of the object,
`self.cells.get_mut(y + offset.1).expect(msg).get_mut(x + offset.0)
.expect(msg).alive = true`. A failing `get_mut` is the panic case, with the
message computed at the top of the iteration. -/
def Grid.loadGo (off : Nat × Nat) : List (Nat × Nat) → Grid → LoadResult
  | [], g => LoadResult.ok g
  | (x, y) :: rest, g =>
    match g.cells[y + off.2]? with
    | none => LoadResult.panicked (outOfBoundsMsg (x + off.1) (y + off.2) g.width g.height) g
    | some row =>
      match row[x + off.1]? with
      | none => LoadResult.panicked (outOfBoundsMsg (x + off.1) (y + off.2) g.width g.height) g
      | some _ =>
        Grid.loadGo off rest { g with cells := setCells g.cells (y + off.2) (x + off.1) }

/-- `Grid::load_object(&mut self, object, offset)` from `src/grid.rs`. -/
def Grid.loadObject (g : Grid) (object : Object) (offset : Nat × Nat) : LoadResult :=
  Grid.loadGo offset object.coordinates g

/-- The traversal order of `Grid::print_alive_cells` (and the spec's
read-only `alive_cells` query): the `(x, y)` of every live cell, row by
row. -/
def Grid.aliveCells (g : Grid) : List (Nat × Nat) :=
  g.cells.enum.flatMap (fun yrow =>
    yrow.2.enum.filterMap (fun xcell =>
      if xcell.2.alive then some (xcell.1, yrow.1) else none))

/-- Well-formedness used by the spec for `advance` totality: every stored
neighbour coordinate of every cell is in bounds of the `cells` structure.
`Grid::new` establishes this. -/
def Grid.WellFormed (g : Grid) : Prop :=
  ∀ row ∈ g.cells, ∀ c ∈ row, ∀ p ∈ c.neighbour_indices,
    (lookupCell? g.cells p.1 p.2).isSome = true

instance (g : Grid) : Decidable g.WellFormed := by
  unfold Grid.WellFormed; infer_instance

/-! ## The pattern parser (`Object::from_string`, `src/object.rs`)

Rust string operations are modelled on `List Char`. -/

/-- Loop of `replaceList`, structurally recursive on a fuel argument so it
evaluates by kernel reduction. Each step consumes at least one character of
`s`, so fuel `s.length` never runs out for the non-empty patterns used. -/
def replaceGo (pat rep : List Char) : Nat → List Char → List Char
  | _, [] => []
  | 0, s => s
  | fuel + 1, c :: rest =>
    if pat.isPrefixOf (c :: rest) then
      rep ++ replaceGo pat rep fuel ((c :: rest).drop pat.length)
    else
      c :: replaceGo pat rep fuel rest

/-- Rust `str::replace(pat, rep)`: replace every non-overlapping occurrence
of `pat`, scanning left to right. -/
def replaceList (pat rep s : List Char) : List Char :=
  replaceGo pat rep s.length s

/-- Rust `str::split_whitespace`: maximal runs of non-whitespace characters
(no empty tokens). `cur` holds the characters of the current token in
reverse. The inputs of interest are ASCII, where Lean's `Char.isWhitespace`
and Rust's `char::is_whitespace` agree. -/
def splitWsGo : List Char → List Char → List (List Char)
  | [], cur => if cur = [] then [] else [cur.reverse]
  | c :: rest, cur =>
    if c.isWhitespace then
      if cur = [] then splitWsGo rest []
      else cur.reverse :: splitWsGo rest []
    else splitWsGo rest (c :: cur)

/-- Rust `str::split(',')`: always at least one piece, empty pieces kept. -/
def splitComma : List Char → List (List Char)
  | [] => [[]]
  | c :: rest =>
    if c = ',' then [] :: splitComma rest
    else
      match splitComma rest with
      | [] => [[c]]
      | t :: ts => (c :: t) :: ts

/-- Rust `usize::from_str`: an optional leading `'+'` followed by at least
one ASCII digit. (Overflow of `usize` is not modelled; every coordinate the
theorems touch is tiny.) -/
def parseUsize? (s : List Char) : Option Nat :=
  let t := match s with
    | '+' :: r => r
    | _ => s
  if t ≠ [] ∧ t.all (fun c => c.isDigit) then
    some (t.foldl (fun a c => a * 10 + (c.toNat - 48)) 0)
  else none

/-- Result of `Object::from_string`: `Ok`, `Err(LoadObjectError)`, or a
panic raised by one of its `expect` calls. -/
inductive FromStringResult where
  | ok (o : Object)
  | err (e : LoadObjectError)
  | panicked (msg : String)
deriving DecidableEq, Repr

/-- The token loop of `Object::from_string`: split each token on `','`,
take the first two pieces (`next()` twice; a missing piece or a failed
`parse` is an `expect` panic), reject duplicates, and accumulate the pairs
in order. An empty final list is `NoCoordinatesFound`. -/
def fromStringGo : List (List Char) → List (Nat × Nat) → FromStringResult
  | [], acc =>
    if acc = [] then FromStringResult.err LoadObjectError.NoCoordinatesFound
    else FromStringResult.ok { coordinates := acc }
  | tok :: rest, acc =>
    match splitComma tok with
    | [] => FromStringResult.panicked "Failed to get next value in comma split"
    | vx :: vrest =>
      match parseUsize? vx with
      | none => FromStringResult.panicked "Failed to parse coordinate to usize"
      | some x =>
        match vrest with
        | [] => FromStringResult.panicked "Failed to get next value in comma split"
        | vy :: _ =>
          match parseUsize? vy with
          | none => FromStringResult.panicked "Failed to parse coordinate to usize"
          | some y =>
            if (x, y) ∈ acc then FromStringResult.err LoadObjectError.DuplicateCoordinate
            else fromStringGo rest (acc ++ [(x, y)])

/-- `Object::from_string(buffer)` from `src/object.rs`: strip parentheses,
normalise whitespace around commas, split on whitespace, parse each token. -/
def Object.fromString (buffer : String) : FromStringResult :=
  let b := replaceList [' ', ','] [',']
    (replaceList [',', ' '] [',']
      (replaceList [')'] []
        (replaceList ['('] [] buffer.data)))
  fromStringGo (splitWsGo b []) []

/-! ## Basic lemmas about grid construction -/

theorem cellAt?_new (w h x y : Nat) :
    (Grid.new w h).cellAt? x y =
      if x < w ∧ y < h then
        some { neighbour_indices := neighbourIndicesFor w h x y, alive := false }
      else none := by
  unfold Grid.new Grid.cellAt? lookupCell?
  simp only [List.getElem?_map]
  by_cases hy : y < h
  · rw [List.getElem?_range hy]
    by_cases hx : x < w
    · rw [Option.map_some', Option.some_bind, List.getElem?_map, List.getElem?_range hx]
      simp [hx, hy]
    · rw [Option.map_some', Option.some_bind, List.getElem?_map,
        List.getElem?_eq_none (by simpa using Nat.le_of_not_lt hx)]
      simp [hx]
  · rw [List.getElem?_eq_none (by simpa using Nat.le_of_not_lt hy)]
    simp [hy]

theorem yIndices_eq_xIndices (h y : Nat) : yIndices h y = xIndices h y := rfl

theorem mem_xIndices (w x x' : Nat) (hx : x < w) :
    x' ∈ xIndices w x ↔ (x' < w ∧ x - 1 ≤ x' ∧ x' ≤ x + 1) := by
  unfold xIndices
  split_ifs <;> simp <;> omega

theorem nodup_xIndices (w x : Nat) (hx : x < w) : (xIndices w x).Nodup := by
  unfold xIndices
  split_ifs <;> simp <;> omega

theorem self_mem_xIndices (w x : Nat) : x ∈ xIndices w x := by
  simp [xIndices]

theorem length_xIndices (w x : Nat) (hx : x < w) :
    (xIndices w x).length =
      1 + (if x = 0 then 0 else 1) + (if x + 1 < w then 1 else 0) := by
  unfold xIndices
  simp only [List.length_append, List.length_singleton, apply_ite List.length,
    List.length_nil]
  split_ifs <;> omega

/-! ## Counting the cross product of neighbour candidates -/

theorem crossRow_length_of_ne (x y nx : Nat) (hnx : nx ≠ x) (ys : List Nat) :
    ((ys.filterMap (fun ny =>
      if nx ≠ x ∨ ny ≠ y then some (nx, ny) else none)).length = ys.length) := by
  induction ys with
  | nil => simp
  | cons a as ih => simp [hnx, ih]

theorem filterMap_ite_all (y : Nat) (f : Nat → Nat × Nat) :
    ∀ ys : List Nat, y ∉ ys →
      (ys.filterMap (fun ny => if ny ≠ y then some (f ny) else none)).length = ys.length
  | [], _ => by simp
  | a :: as, h => by
    have ha : a ≠ y := fun e => h (by simp [e])
    rw [List.filterMap_cons, if_pos ha]
    simp only [List.length_cons]
    rw [filterMap_ite_all y f as (fun m => h (by simp [m]))]

theorem filterMap_ite_length (y : Nat) (f : Nat → Nat × Nat) :
    ∀ ys : List Nat, ys.Nodup → y ∈ ys →
      (ys.filterMap (fun ny => if ny ≠ y then some (f ny) else none)).length = ys.length - 1
  | [], _, hm => by simp at hm
  | a :: as, hnd, hm => by
    rcases List.nodup_cons.mp hnd with ⟨ha, hnd'⟩
    by_cases hay : a = y
    · rw [List.filterMap_cons, if_neg (by simp [hay])]
      rw [filterMap_ite_all y f as (hay ▸ ha)]
      simp
    · have hm' : y ∈ as := by
        rcases List.mem_cons.mp hm with h | h
        · exact absurd h.symm hay
        · exact h
      have h1 : 0 < as.length := List.length_pos.mpr (List.ne_nil_of_mem hm')
      rw [List.filterMap_cons, if_pos hay]
      simp only [List.length_cons]
      rw [filterMap_ite_length y f as hnd' hm']
      omega

theorem cross_length_notmem (x y : Nat) (ys : List Nat) :
    ∀ xs : List Nat, x ∉ xs →
      ((xs.flatMap (fun nx => ys.filterMap (fun ny =>
        if nx ≠ x ∨ ny ≠ y then some (nx, ny) else none))).length = xs.length * ys.length)
  | [], _ => by simp
  | a :: as, hx => by
    have ha : a ≠ x := fun e => hx (by simp [e])
    have has : x ∉ as := fun h => hx (by simp [h])
    rw [List.flatMap_cons, List.length_append, crossRow_length_of_ne x y a ha ys,
      cross_length_notmem x y ys as has]
    simp only [List.length_cons]
    ring

theorem cross_length (x y : Nat) (ys : List Nat) (hysnd : ys.Nodup) (hymem : y ∈ ys) :
    ∀ xs : List Nat, xs.Nodup → x ∈ xs →
      ((xs.flatMap (fun nx => ys.filterMap (fun ny =>
        if nx ≠ x ∨ ny ≠ y then some (nx, ny) else none))).length = xs.length * ys.length - 1)
  | [], _, hx => by simp at hx
  | a :: as, hnd, hx => by
    rcases List.nodup_cons.mp hnd with ⟨ha, hnd'⟩
    have hys1 : 0 < ys.length := List.length_pos.mpr (List.ne_nil_of_mem hymem)
    by_cases hax : a = x
    · have hfun : (fun ny => if a ≠ x ∨ ny ≠ y then some (a, ny) else none)
          = (fun ny => if ny ≠ y then some ((a, ny) : Nat × Nat) else none) := by
        funext ny
        simp [hax]
      rw [List.flatMap_cons, List.length_append, hfun,
        filterMap_ite_length y (fun ny => (a, ny)) ys hysnd hymem,
        cross_length_notmem x y ys as (hax ▸ ha)]
      simp only [List.length_cons]
      rw [Nat.succ_mul]
      omega
    · have hx' : x ∈ as := by
        rcases List.mem_cons.mp hx with h | h
        · exact absurd h.symm hax
        · exact h
      have has1 : 0 < as.length := List.length_pos.mpr (List.ne_nil_of_mem hx')
      have hprod : 0 < as.length * ys.length := Nat.mul_pos has1 hys1
      rw [List.flatMap_cons, List.length_append, crossRow_length_of_ne x y a hax ys,
        cross_length x y ys hysnd hymem as hnd' hx']
      simp only [List.length_cons]
      rw [Nat.succ_mul]
      omega

theorem length_neighbourIndicesFor (w h x y : Nat) (hx : x < w) (hy : y < h) :
    (neighbourIndicesFor w h x y).length =
      (xIndices w x).length * (yIndices h y).length - 1 := by
  unfold neighbourIndicesFor
  rw [yIndices_eq_xIndices]
  exact cross_length x y (xIndices h y) (nodup_xIndices h y hy) (self_mem_xIndices h y)
    (xIndices w x) (nodup_xIndices w x hx) (self_mem_xIndices w x)

theorem mem_neighbourIndicesFor (w h x y : Nat) (p : Nat × Nat) :
    p ∈ neighbourIndicesFor w h x y ↔
      (p.1 ∈ xIndices w x ∧ p.2 ∈ yIndices h y ∧ p ≠ (x, y)) := by
  unfold neighbourIndicesFor
  simp only [List.mem_flatMap, List.mem_filterMap, Option.ite_none_right_eq_some,
    Option.some.injEq]
  constructor
  · rintro ⟨nx, hnx, ny, hny, hcond, rfl⟩
    refine ⟨hnx, hny, ?_⟩
    simp only [ne_eq, Prod.mk.injEq, not_and]
    rcases hcond with h | h
    · exact fun e => absurd e h
    · exact fun _ => h
  · rintro ⟨h1, h2, h3⟩
    refine ⟨p.1, h1, p.2, h2, ?_, rfl⟩
    by_cases e1 : p.1 = x
    · right
      intro e2
      exact h3 (Prod.ext e1 e2)
    · exact Or.inl e1

/-! ## Advance: totality and per-cell characterisation -/

theorem mapM_option_eq_some {α β : Type} (f : α → Option β) (g : α → β) :
    ∀ l : List α, (∀ a ∈ l, f a = some (g a)) → l.mapM f = some (l.map g)
  | [], _ => rfl
  | a :: l, h => by
    rw [List.mapM_cons, h a (by simp), mapM_option_eq_some f g l (fun b hb => h b (by simp [hb]))]
    rfl

/-- The predicate "the snapshot records the cell at `p` as alive". -/
def aliveAt (cells : List (List Cell)) (p : Nat × Nat) : Bool :=
  ((lookupCell? cells p.1 p.2).map Cell.alive).getD false

theorem sumAliveGo_eq_countP (cells : List (List Cell)) :
    ∀ (ps : List (Nat × Nat)), (∀ p ∈ ps, (lookupCell? cells p.1 p.2).isSome = true) →
      ∀ acc, sumAliveGo cells ps acc = some (acc + ps.countP (aliveAt cells))
  | [], _, acc => by simp [sumAliveGo]
  | p :: rest, h, acc => by
    rcases Option.isSome_iff_exists.mp (h p (by simp)) with ⟨c, hc⟩
    have step : sumAliveGo cells (p :: rest) acc
        = sumAliveGo cells rest (acc + if c.alive then 1 else 0) := by
      simp only [sumAliveGo, hc]
    rw [step, sumAliveGo_eq_countP cells rest (fun q hq => h q (by simp [hq]))]
    rw [List.countP_cons]
    have : aliveAt cells p = c.alive := by simp [aliveAt, hc]
    rw [this]
    cases c.alive <;> simp <;> omega

theorem neighbourCount?_eq (c : Cell) (cells : List (List Cell))
    (h : ∀ p ∈ c.neighbour_indices, (lookupCell? cells p.1 p.2).isSome = true) :
    c.neighbourCount? cells = some (c.neighbour_indices.countP (aliveAt cells)) := by
  unfold Cell.neighbourCount?
  rw [sumAliveGo_eq_countP cells c.neighbour_indices h 0]
  simp

theorem advance?_eq_of_wellFormed (g : Grid) (hwf : g.WellFormed) :
    g.advance? = some { g with cells := g.cells.map (fun row => row.map (fun c =>
      { c with alive := ruleNext (c.neighbour_indices.countP (aliveAt g.cells)) c.alive })) } := by
  unfold Grid.advance?
  rw [mapM_option_eq_some _
    (fun row => row.map (fun c =>
      { c with alive := ruleNext (c.neighbour_indices.countP (aliveAt g.cells)) c.alive }))
    g.cells
    (fun row hrow => mapM_option_eq_some _
      (fun c => { c with alive := ruleNext (c.neighbour_indices.countP (aliveAt g.cells)) c.alive })
      row
      (fun c hc => by
        rw [neighbourCount?_eq c g.cells (hwf row hrow c hc)]
        rfl))]
  rfl

theorem lookupCell?_map (cells : List (List Cell)) (f : Cell → Cell) (x y : Nat) :
    lookupCell? (cells.map (fun row => row.map f)) x y = (lookupCell? cells x y).map f := by
  unfold lookupCell?
  rw [List.getElem?_map]
  cases cells[y]? <;> simp

/-! ## Loading: cell updates and frame lemmas -/

theorem getElem?_setRow (r : List Cell) (x i : Nat) :
    (setRow r x)[i]? =
      if i = x then (r[i]?).map (fun c => { c with alive := true }) else r[i]? := by
  induction r generalizing x i with
  | nil => simp [setRow]
  | cons c cs ih =>
    cases x with
    | zero =>
      cases i with
      | zero => simp [setRow]
      | succ j => simp [setRow]
    | succ n =>
      cases i with
      | zero => simp [setRow]
      | succ j =>
        simp only [setRow, List.getElem?_cons_succ]
        rw [ih n j]
        by_cases h : j = n <;> simp [h]

theorem getElem?_setCells (cs : List (List Cell)) (y x j : Nat) :
    (setCells cs y x)[j]? =
      if j = y then (cs[j]?).map (fun r => setRow r x) else cs[j]? := by
  induction cs generalizing y j with
  | nil => simp [setCells]
  | cons r rs ih =>
    cases y with
    | zero =>
      cases j with
      | zero => simp [setCells]
      | succ i => simp [setCells]
    | succ n =>
      cases j with
      | zero => simp [setCells]
      | succ i =>
        simp only [setCells, List.getElem?_cons_succ]
        rw [ih n i]
        by_cases h : i = n <;> simp [h]

theorem lookupCell?_setCells (cs : List (List Cell)) (yy xx x y : Nat) :
    lookupCell? (setCells cs yy xx) x y =
      if y = yy ∧ x = xx then (lookupCell? cs x y).map (fun c => { c with alive := true })
      else lookupCell? cs x y := by
  unfold lookupCell?
  rw [getElem?_setCells]
  by_cases hy : y = yy
  · subst hy
    rw [if_pos rfl]
    simp only [eq_self_iff_true, true_and]
    cases hrow : cs[y]? with
    | none => simp
    | some row =>
      simp only [Option.map_some', Option.some_bind]
      rw [getElem?_setRow]
  · simp [hy]

theorem isSome_cellAt?_setCells (g : Grid) (yy xx x y : Nat) :
    (Grid.cellAt? { g with cells := setCells g.cells yy xx } x y).isSome
      = (g.cellAt? x y).isSome := by
  show (lookupCell? (setCells g.cells yy xx) x y).isSome = (lookupCell? g.cells x y).isSome
  rw [lookupCell?_setCells]
  by_cases h : y = yy ∧ x = xx
  · rw [if_pos h]
    cases lookupCell? g.cells x y <;> rfl
  · rw [if_neg h]

/-- The Bool test "some coordinate of `coords`, shifted by `off`, lands on
`(x, y)`". -/
def hitBy (coords : List (Nat × Nat)) (off : Nat × Nat) (x y : Nat) : Bool :=
  coords.any (fun p => p.1 + off.1 == x && p.2 + off.2 == y)

theorem loadGo_ok (off : Nat × Nat) :
    ∀ (coords : List (Nat × Nat)) (g : Grid),
      (∀ p ∈ coords, (g.cellAt? (p.1 + off.1) (p.2 + off.2)).isSome = true) →
      ∃ g', Grid.loadGo off coords g = LoadResult.ok g' ∧ g'.width = g.width ∧
        g'.height = g.height ∧
        ∀ x y, g'.cellAt? x y = (g.cellAt? x y).map (fun c =>
          { c with alive := c.alive || hitBy coords off x y })
  | [], g, _ => ⟨g, rfl, rfl, rfl, fun x y => by
      cases h : g.cellAt? x y with
      | none => rfl
      | some c => cases c with | mk n a => simp [hitBy]⟩
  | (px, py) :: rest, g, h => by
    have hhead : (g.cellAt? (px + off.1) (py + off.2)).isSome = true := h (px, py) (by simp)
    rw [Grid.cellAt?, lookupCell?] at hhead
    cases hrow : g.cells[py + off.2]? with
    | none => rw [hrow] at hhead; simp at hhead
    | some row =>
      rw [hrow] at hhead
      simp only [Option.some_bind] at hhead
      cases hcell : row[px + off.1]? with
      | none => rw [hcell] at hhead; simp at hhead
      | some c1 =>
        have hstep : Grid.loadGo off ((px, py) :: rest) g
            = Grid.loadGo off rest
              { g with cells := setCells g.cells (py + off.2) (px + off.1) } := by
          simp only [Grid.loadGo, hrow, hcell]
        have hrest : ∀ p ∈ rest,
            ((Grid.cellAt? { g with cells := setCells g.cells (py + off.2) (px + off.1) }
              (p.1 + off.1) (p.2 + off.2)).isSome = true) := by
          intro p hp
          rw [isSome_cellAt?_setCells]
          exact h p (by simp [hp])
        obtain ⟨g', hload, hw, hht, hcells⟩ :=
          loadGo_ok off rest { g with cells := setCells g.cells (py + off.2) (px + off.1) } hrest
        refine ⟨g', by rw [hstep]; exact hload, hw, hht, ?_⟩
        intro x y
        rw [hcells x y]
        show ((lookupCell? (setCells g.cells (py + off.2) (px + off.1)) x y).map _)
          = ((lookupCell? g.cells x y).map _)
        rw [lookupCell?_setCells]
        by_cases hxy : y = py + off.2 ∧ x = px + off.1
        · rw [if_pos hxy]
          cases hv : lookupCell? g.cells x y with
          | none => rfl
          | some c =>
            cases c with
            | mk n a =>
              simp only [Option.map_some', Option.some.injEq, Cell.mk.injEq, true_and]
              have hhd : (px + off.1 == x && py + off.2 == y) = true := by
                simp [hxy.1, hxy.2]
              simp [hitBy, hhd]
        · rw [if_neg hxy]
          cases hv : lookupCell? g.cells x y with
          | none => rfl
          | some c =>
            cases c with
            | mk n a =>
              simp only [Option.map_some', Option.some.injEq, Cell.mk.injEq, true_and]
              have hhd : (px + off.1 == x && py + off.2 == y) = false := by
                rcases Decidable.not_and_iff_or_not.mp hxy with hcon | hcon <;>
                  simp [beq_iff_eq] <;> omega
              simp [hitBy, hhd, Bool.or_assoc]

theorem loadGo_panic (off : Nat × Nat) (p : Nat × Nat) (suf : List (Nat × Nat)) :
    ∀ (pre : List (Nat × Nat)) (g : Grid),
      (∀ q ∈ pre, (g.cellAt? (q.1 + off.1) (q.2 + off.2)).isSome = true) →
      (g.cellAt? (p.1 + off.1) (p.2 + off.2)) = none →
      ∃ g', Grid.loadGo off pre g = LoadResult.ok g' ∧
        Grid.loadGo off (pre ++ p :: suf) g
          = LoadResult.panicked (outOfBoundsMsg (p.1 + off.1) (p.2 + off.2) g.width g.height) g'
  | [], g, _, hp => by
    cases p with
    | mk px py =>
      have hp2 : lookupCell? g.cells (px + off.1) (py + off.2) = none := hp
      refine ⟨g, rfl, ?_⟩
      rw [List.nil_append, lookupCell?] at *
      show Grid.loadGo off ((px, py) :: suf) g
        = LoadResult.panicked (outOfBoundsMsg (px + off.1) (py + off.2) g.width g.height) g
      cases hrow : g.cells[py + off.2]? with
      | none => simp only [Grid.loadGo, hrow]
      | some row =>
        rw [hrow] at hp2
        simp only [Option.some_bind] at hp2
        simp only [Grid.loadGo, hrow, hp2]
  | (qx, qy) :: pre, g, h, hp => by
    have hhead : (g.cellAt? (qx + off.1) (qy + off.2)).isSome = true := h (qx, qy) (by simp)
    rw [Grid.cellAt?, lookupCell?] at hhead
    cases hrow : g.cells[qy + off.2]? with
    | none => rw [hrow] at hhead; simp at hhead
    | some row =>
      rw [hrow] at hhead
      simp only [Option.some_bind] at hhead
      cases hcell : row[qx + off.1]? with
      | none => rw [hcell] at hhead; simp at hhead
      | some c1 =>
        have hrest : ∀ q ∈ pre,
            ((Grid.cellAt? { g with cells := setCells g.cells (qy + off.2) (qx + off.1) }
              (q.1 + off.1) (q.2 + off.2)).isSome = true) := by
          intro q hq
          rw [isSome_cellAt?_setCells]
          exact h q (by simp [hq])
        have hp2 : (Grid.cellAt? { g with cells := setCells g.cells (qy + off.2) (qx + off.1) }
            (p.1 + off.1) (p.2 + off.2)) = none := by
          have hs := isSome_cellAt?_setCells g (qy + off.2) (qx + off.1) (p.1 + off.1) (p.2 + off.2)
          rw [hp] at hs
          exact Option.not_isSome_iff_eq_none.mp (by rw [hs]; simp)
        obtain ⟨g', h1, h2⟩ :=
          loadGo_panic off p suf pre
            { g with cells := setCells g.cells (qy + off.2) (qx + off.1) } hrest hp2
        refine ⟨g', ?_, ?_⟩
        · show Grid.loadGo off ((qx, qy) :: pre) g = LoadResult.ok g'
          simp only [Grid.loadGo, hrow, hcell]
          exact h1
        · show Grid.loadGo off (((qx, qy) :: pre) ++ p :: suf) g = _
          rw [List.cons_append]
          simp only [Grid.loadGo, hrow, hcell]
          exact h2

/-! ## Degenerate grids and parser error kinds -/

theorem mapM_replicate_some (F : List Cell → Option (List Cell)) (hF : F [] = some []) :
    ∀ n : Nat, (List.replicate n ([] : List Cell)).mapM F = some (List.replicate n []) := by
  intro n
  induction n with
  | zero => rfl
  | succ m ih =>
    rw [List.replicate_succ, List.mapM_cons, hF, ih]
    rfl

theorem fromStringGo_ne_badInput :
    ∀ (toks : List (List Char)) (acc : List (Nat × Nat)),
      fromStringGo toks acc ≠ FromStringResult.err LoadObjectError.BadInput
  | [], acc => by
    unfold fromStringGo
    split <;> simp
  | tok :: rest, acc => by
    unfold fromStringGo
    cases hsc : splitComma tok with
    | nil => simp
    | cons vx vrest =>
      cases hx : parseUsize? vx with
      | none => simp [hx]
      | some x =>
        cases vrest with
        | nil => simp [hx]
        | cons vy vr =>
          cases hy : parseUsize? vy with
          | none => simp [hx, hy]
          | some y =>
            by_cases hd : (x, y) ∈ acc
            · simp [hx, hy, hd]
            · simp only [hx, hy, if_neg hd]
              exact fromStringGo_ne_badInput rest (acc ++ [(x, y)])

/-! ## Claim theorems -/

/-- C1: after one `Grid::advance`, every cell's `alive` flag equals the
B3/S23 rule table (0–1 live neighbours → dead, 2 → unchanged, 3 → alive,
4 or more → dead) applied to the number of its precomputed neighbours that
were alive in the pre-advance snapshot. -/
theorem advance_matches_rule_table (g : Grid) (hwf : g.WellFormed) (x y : Nat) (c : Cell)
    (hc : g.cellAt? x y = some c) :
    ∃ g', g.advance? = some g' ∧
      g'.cellAt? x y = some { c with alive :=
        if c.neighbour_indices.countP (aliveAt g.cells) ≤ 1 then false
        else if c.neighbour_indices.countP (aliveAt g.cells) = 2 then c.alive
        else if c.neighbour_indices.countP (aliveAt g.cells) = 3 then true
        else false } := by
  refine ⟨_, advance?_eq_of_wellFormed g hwf, ?_⟩
  show lookupCell? (g.cells.map _) x y = _
  rw [lookupCell?_map]
  have hc' : lookupCell? g.cells x y = some c := hc
  rw [hc']
  cases c with
  | mk n a => simp [ruleNext]

/-- Witness for C1 at the 2×2 grid's top-left cell (3 dead neighbours,
cell stays dead). -/
theorem advance_matches_rule_table_witness :
    ∃ g', (Grid.new 2 2).advance? = some g' ∧
      g'.cellAt? 0 0 = some { neighbour_indices := [(0, 1), (1, 0), (1, 1)], alive :=
        if (List.countP (aliveAt (Grid.new 2 2).cells) [(0, 1), (1, 0), (1, 1)] ≤ 1) then false
        else if (List.countP (aliveAt (Grid.new 2 2).cells) [(0, 1), (1, 0), (1, 1)] = 2) then false
        else if (List.countP (aliveAt (Grid.new 2 2).cells) [(0, 1), (1, 0), (1, 1)] = 3) then true
        else false } :=
  advance_matches_rule_table (Grid.new 2 2) (by decide) 0 0
    (Cell.mk [(0, 1), (1, 0), (1, 1)] false) (by decide)

/-- C2 counterexample: in `Grid::new(1, 1)` the only cell sits in a grid
corner (its x is 0 or width−1, its y is 0 or height−1) yet its precomputed
neighbour list is empty, not of length 3. -/
theorem corner_neighbours_fail_on_1x1 :
    ∃ c, (Grid.new 1 1).cellAt? 0 0 = some c ∧
      (0 = 0 ∨ 0 = 1 - 1) ∧ (0 = 0 ∨ 0 = 1 - 1) ∧
      c.neighbour_indices.length ≠ 3 :=
  ⟨{ neighbour_indices := [], alive := false }, rfl, Or.inl rfl, Or.inl rfl, by decide⟩

/-- C2 (amended): in every constructed grid no precomputed neighbour
coordinate equals the cell's own coordinate or lies out of bounds; and in
every constructed grid with width ≥ 2 and height ≥ 2, corner cells have
exactly 3 precomputed neighbours, edge (non-corner) cells exactly 5, and
interior cells exactly 8. -/
theorem neighbour_count_classification :
    (∀ w h x y c, (Grid.new w h).cellAt? x y = some c →
      ∀ p ∈ c.neighbour_indices, p ≠ (x, y) ∧ p.1 < w ∧ p.2 < h) ∧
    (∀ w h x y, 2 ≤ w → 2 ≤ h → x < w → y < h →
      ∃ c, (Grid.new w h).cellAt? x y = some c ∧
        c.neighbour_indices.length =
          if (x = 0 ∨ x = w - 1) ∧ (y = 0 ∨ y = h - 1) then 3
          else if (x = 0 ∨ x = w - 1) ∨ (y = 0 ∨ y = h - 1) then 5
          else 8) := by
  constructor
  · intro w h x y c hc p hp
    rw [cellAt?_new] at hc
    by_cases hb : x < w ∧ y < h
    · rw [if_pos hb] at hc
      injection hc with hc
      subst hc
      simp only at hp
      rw [mem_neighbourIndicesFor, yIndices_eq_xIndices] at hp
      obtain ⟨h1, h2, h3⟩ := hp
      rw [mem_xIndices w x p.1 hb.1] at h1
      rw [mem_xIndices h y p.2 hb.2] at h2
      exact ⟨h3, h1.1, h2.1⟩
    · rw [if_neg hb] at hc
      exact absurd hc (by simp)
  · intro w h x y hw hh hx hy
    refine ⟨_, by rw [cellAt?_new, if_pos ⟨hx, hy⟩], ?_⟩
    show (neighbourIndicesFor w h x y).length = _
    rw [length_neighbourIndicesFor w h x y hx hy, yIndices_eq_xIndices,
      length_xIndices w x hx, length_xIndices h y hy]
    split_ifs <;> omega

/-- Witness for C2: the centre cell of the 3×3 grid is interior and has 8
neighbours; the classification theorem instantiates to it. -/
theorem neighbour_count_classification_witness :
    (∀ p ∈ (Cell.mk [(0, 1), (1, 0), (1, 1)] false).neighbour_indices,
      p ≠ ((0 : Nat), (0 : Nat)) ∧ p.1 < 2 ∧ p.2 < 2) ∧
    (∃ c, (Grid.new 3 3).cellAt? 1 1 = some c ∧
      c.neighbour_indices.length =
        if ((1 : Nat) = 0 ∨ 1 = 3 - 1) ∧ ((1 : Nat) = 0 ∨ 1 = 3 - 1) then 3
        else if ((1 : Nat) = 0 ∨ 1 = 3 - 1) ∨ ((1 : Nat) = 0 ∨ 1 = 3 - 1) then 5
        else 8) :=
  ⟨neighbour_count_classification.1 2 2 0 0 (Cell.mk [(0, 1), (1, 0), (1, 1)] false) (by decide),
    neighbour_count_classification.2 3 3 1 1 (by decide) (by decide) (by decide) (by decide)⟩

/-- C3: on a well-formed grid (all precomputed neighbour coordinates in
bounds, as `Grid::new` establishes) `advance` is total: every neighbour
count succeeds (no out-of-bounds read) and the advance returns a grid. -/
theorem advance_total_on_wellformed (g : Grid) (hwf : g.WellFormed) :
    (∀ row ∈ g.cells, ∀ c ∈ row, (c.neighbourCount? g.cells).isSome = true) ∧
    ∃ g', g.advance? = some g' := by
  constructor
  · intro row hrow c hc
    rw [neighbourCount?_eq c g.cells (hwf row hrow c hc)]
    rfl
  · exact ⟨_, advance?_eq_of_wellFormed g hwf⟩

/-- Witness for C3 at the 2×2 grid. -/
theorem advance_total_on_wellformed_witness :
    (∀ row ∈ (Grid.new 2 2).cells, ∀ c ∈ row,
      (c.neighbourCount? (Grid.new 2 2).cells).isSome = true) ∧
    ∃ g', (Grid.new 2 2).advance? = some g' :=
  advance_total_on_wellformed (Grid.new 2 2) (by decide)

/-- C4 counterexample: `Grid::load_object` does not signal an error to the
caller on an out-of-bounds coordinate — it panics (via `expect`), here on a
2×2 grid with coordinate (5,5) at offset (0,0). -/
theorem load_object_panics_on_out_of_bounds :
    (Grid.new 2 2).loadObject { coordinates := [(5, 5)] } (0, 0)
      = LoadResult.panicked "Position (5, 5) is out of bounds for grid of size (2, 2)"
          (Grid.new 2 2) := by decide

/-- C4 (amended): on the first out-of-bounds shifted coordinate,
`Grid::load_object` panics with a message naming the offending position
(it neither wraps nor silently ignores it, and returns no error value);
the grid at the moment of the panic has exactly the previously-applied
coordinates set. -/
theorem load_object_out_of_bounds_panics (g : Grid) (off : Nat × Nat)
    (pre suf : List (Nat × Nat)) (p : Nat × Nat)
    (hpre : ∀ q ∈ pre, (g.cellAt? (q.1 + off.1) (q.2 + off.2)).isSome = true)
    (hp : g.cellAt? (p.1 + off.1) (p.2 + off.2) = none) :
    ∃ g', g.loadObject { coordinates := pre ++ p :: suf } off
        = LoadResult.panicked
            (outOfBoundsMsg (p.1 + off.1) (p.2 + off.2) g.width g.height) g' ∧
      Grid.loadGo off pre g = LoadResult.ok g' := by
  obtain ⟨g', h1, h2⟩ := loadGo_panic off p suf pre g hpre hp
  exact ⟨g', h2, h1⟩

/-- Witness for C4 on a 2×2 grid: (0,0) is applied, then (5,5) panics. -/
theorem load_object_out_of_bounds_panics_witness :
    ∃ g', (Grid.new 2 2).loadObject { coordinates := [(0, 0), (5, 5)] } (0, 0)
        = LoadResult.panicked (outOfBoundsMsg 5 5 2 2) g' ∧
      Grid.loadGo (0, 0) [(0, 0)] (Grid.new 2 2) = LoadResult.ok g' :=
  load_object_out_of_bounds_panics (Grid.new 2 2) (0, 0) [(0, 0)] [] (5, 5)
    (by decide) (by decide)

/-- C5: loading a pattern whose shifted coordinates are all in bounds onto
a freshly constructed grid succeeds and leaves alive exactly the shifted
pattern coordinates. -/
theorem load_on_fresh_grid_exact (w h : Nat) (coords : List (Nat × Nat)) (off : Nat × Nat)
    (hin : ∀ p ∈ coords, p.1 + off.1 < w ∧ p.2 + off.2 < h) :
    ∃ g', (Grid.new w h).loadObject { coordinates := coords } off = LoadResult.ok g' ∧
      ∀ x y c, g'.cellAt? x y = some c →
        (c.alive = true ↔ ∃ p ∈ coords, p.1 + off.1 = x ∧ p.2 + off.2 = y) := by
  have hin' : ∀ p ∈ coords,
      ((Grid.new w h).cellAt? (p.1 + off.1) (p.2 + off.2)).isSome = true := by
    intro p hp
    rw [cellAt?_new, if_pos (hin p hp)]
    rfl
  obtain ⟨g', hload, _, _, hcells⟩ := loadGo_ok off coords (Grid.new w h) hin'
  refine ⟨g', hload, ?_⟩
  intro x y c hc
  rw [hcells x y, cellAt?_new] at hc
  by_cases hb : x < w ∧ y < h
  · rw [if_pos hb] at hc
    simp only [Option.map_some', Option.some.injEq] at hc
    subst hc
    simp [hitBy, List.any_eq_true, beq_iff_eq]
  · rw [if_neg hb] at hc
    simp at hc

/-- Witness for C5: two cells loaded at offset (1,0) on a 3×3 grid. -/
theorem load_on_fresh_grid_exact_witness :
    ∃ g', (Grid.new 3 3).loadObject { coordinates := [(0, 0), (1, 2)] } (1, 0)
        = LoadResult.ok g' ∧
      ∀ x y c, g'.cellAt? x y = some c →
        (c.alive = true ↔ ∃ p ∈ [((0 : Nat), (0 : Nat)), (1, 2)],
          p.1 + 1 = x ∧ p.2 + 0 = y) :=
  load_on_fresh_grid_exact 3 3 [(0, 0), (1, 2)] (1, 0) (by decide)

/-- C6: `Grid::new(width, height)` with positive dimensions builds `height`
rows of `width` cells, all dead, each with its neighbour list precomputed
to exactly the in-bounds Moore neighbourhood of its coordinate. -/
theorem grid_new_spec (w h : Nat) (hw : 0 < w) (hh : 0 < h) :
    (Grid.new w h).cells.length = h ∧
    (∀ row ∈ (Grid.new w h).cells, row.length = w) ∧
    (∀ x y, x < w → y < h → ∃ c, (Grid.new w h).cellAt? x y = some c ∧
      c.alive = false ∧
      (∀ p : Nat × Nat, p ∈ c.neighbour_indices ↔
        (p ≠ (x, y) ∧ p.1 < w ∧ p.2 < h ∧
          p.1 ≤ x + 1 ∧ x ≤ p.1 + 1 ∧ p.2 ≤ y + 1 ∧ y ≤ p.2 + 1))) := by
  refine ⟨by simp [Grid.new], ?_, ?_⟩
  · intro row hrow
    simp only [Grid.new, List.mem_map] at hrow
    obtain ⟨y, _, rfl⟩ := hrow
    simp
  · intro x y hx hy
    refine ⟨_, by rw [cellAt?_new, if_pos ⟨hx, hy⟩], rfl, ?_⟩
    intro p
    show p ∈ neighbourIndicesFor w h x y ↔ _
    rw [mem_neighbourIndicesFor, yIndices_eq_xIndices,
      mem_xIndices w x p.1 hx, mem_xIndices h y p.2 hy,
      show (p ≠ (x, y)) ↔ ¬(p.1 = x ∧ p.2 = y) by rw [Ne, Prod.ext_iff]]
    omega

/-- Witness for C6 on the 2×3 grid. -/
theorem grid_new_spec_witness :
    (Grid.new 2 3).cells.length = 3 ∧
    (∀ row ∈ (Grid.new 2 3).cells, row.length = 2) ∧
    (∀ x y, x < 2 → y < 3 → ∃ c, (Grid.new 2 3).cellAt? x y = some c ∧
      c.alive = false ∧
      (∀ p : Nat × Nat, p ∈ c.neighbour_indices ↔
        (p ≠ (x, y) ∧ p.1 < 2 ∧ p.2 < 3 ∧
          p.1 ≤ x + 1 ∧ x ≤ p.1 + 1 ∧ p.2 ≤ y + 1 ∧ y ≤ p.2 + 1))) :=
  grid_new_spec 2 3 (by decide) (by decide)

/-- C7: `Object::from_string` returns `NoCoordinatesFound` for an input with
no coordinates and `DuplicateCoordinate` for a repeated coordinate, but an
unparsable token makes it panic through `expect` instead of returning the
declared `BadInput` error, which no execution ever returns. -/
theorem from_string_error_kinds :
    Object.fromString "" = FromStringResult.err LoadObjectError.NoCoordinatesFound ∧
    Object.fromString "(0,2) (3,4) (0,2)"
      = FromStringResult.err LoadObjectError.DuplicateCoordinate ∧
    Object.fromString "(a,2)"
      = FromStringResult.panicked "Failed to parse coordinate to usize" ∧
    (∀ buffer : String,
      Object.fromString buffer ≠ FromStringResult.err LoadObjectError.BadInput) :=
  ⟨by decide, by decide, by decide,
    fun buffer => fromStringGo_ne_badInput _ []⟩

/-- C8: the glider pattern, loaded at (0,0) on an 8×8 grid, puts exactly
its five cells alive; one `advance` yields exactly
{(0,1), (1,2), (1,3), (2,1), (2,2)} alive. -/
theorem glider_load_and_step :
    ∃ o g1 g2, Object.fromString "(0,2) (1,2) (2,2) (1,0) (2,1)" = FromStringResult.ok o ∧
      (Grid.new 8 8).loadObject o (0, 0) = LoadResult.ok g1 ∧
      g1.aliveCells = [(1, 0), (2, 1), (0, 2), (1, 2), (2, 2)] ∧
      g1.advance? = some g2 ∧
      g2.aliveCells = [(0, 1), (2, 1), (1, 2), (2, 2), (1, 3)] := by
  refine ⟨_, _, _, rfl, rfl, ?_, rfl, ?_⟩ <;> decide

/-- C9: a fully in-bounds `load_object` succeeds and only turns cells on:
each cell's new `alive` flag is its old one or-ed with membership of the
shifted pattern, and the width, height, and every neighbour list are
unchanged. -/
theorem load_object_frame (g : Grid) (coords : List (Nat × Nat)) (off : Nat × Nat)
    (hin : ∀ p ∈ coords, (g.cellAt? (p.1 + off.1) (p.2 + off.2)).isSome = true) :
    ∃ g', g.loadObject { coordinates := coords } off = LoadResult.ok g' ∧
      g'.width = g.width ∧ g'.height = g.height ∧
      ∀ x y, g'.cellAt? x y = (g.cellAt? x y).map (fun c =>
        { c with alive := c.alive || hitBy coords off x y }) :=
  loadGo_ok off coords g hin

/-- Witness for C9: loading (0,0) at offset (1,1) on the 2×2 grid. -/
theorem load_object_frame_witness :
    ∃ g', (Grid.new 2 2).loadObject { coordinates := [(0, 0)] } (1, 1) = LoadResult.ok g' ∧
      g'.width = (Grid.new 2 2).width ∧ g'.height = (Grid.new 2 2).height ∧
      ∀ x y, g'.cellAt? x y = ((Grid.new 2 2).cellAt? x y).map (fun c =>
        { c with alive := c.alive || hitBy [(0, 0)] (1, 1) x y }) :=
  load_object_frame (Grid.new 2 2) [(0, 0)] (1, 1) (by decide)

/-- C10: zero-width or zero-height construction succeeds — `Grid::new(0, h)`
yields `h` empty rows and `Grid::new(w, 0)` no rows, so no cell exists and
the per-cell boundary arithmetic never runs — and `advance` on either grid
succeeds and changes nothing. -/
theorem zero_dimension_grids (w h : Nat) :
    (Grid.new 0 h).cells = List.replicate h [] ∧
    (Grid.new w 0).cells = [] ∧
    (Grid.new 0 h).advance? = some (Grid.new 0 h) ∧
    (Grid.new w 0).advance? = some (Grid.new w 0) := by
  have hc : (Grid.new 0 h).cells = List.replicate h [] := by
    show (List.range h).map _ = _
    rw [show (fun y => (List.range 0).map (fun x =>
        ({ neighbour_indices := neighbourIndicesFor 0 h x y, alive := false } : Cell)))
      = (fun _ => ([] : List Cell)) from rfl]
    rw [List.map_const', List.length_range]
  have hc0 : (Grid.new w 0).cells = [] := rfl
  refine ⟨hc, hc0, ?_, ?_⟩
  · unfold Grid.advance?
    rw [hc]
    have hm := mapM_replicate_some
      (fun (row : List Cell) => row.mapM (fun (cell : Cell) =>
        (cell.neighbourCount? (List.replicate h [])).map
          (fun n => { cell with alive := ruleNext n cell.alive }))) rfl h
    rw [hm, Option.map_some']
    congr 1
    rw [← hc]
  · unfold Grid.advance?
    rw [hc0]
    rfl

end Conlife
